import Mathlib

/-!
Verification of the vibe-vmm core: a shallow embedding, in Lean 4, of the
guest-memory translation, device bus, vCPU exit dispatch, and legacy-virtio
transport of the C sources, together with theorems settling the specified
properties.

Machine integers are modelled as Nat with explicit reduction modulo 2^w at
the points where the C code's fixed-width arithmetic can wrap.  Host memory
reachable through a slot is addressed by guest-physical address: the C
translation returns hva = slot.hva + (gpa - slot.gpa), a bijection from the
slot's guest range onto its backing buffer, so reads and writes performed
through a translated pointer are modelled as reads and writes at the
corresponding guest-physical address.
-/

namespace VibeVMM

/-- 2^64, the modulus of the C sources' uint64_t arithmetic. -/
def U64 : Nat := 18446744073709551616

/-- 2^32, the modulus of uint32_t arithmetic. -/
def U32 : Nat := 4294967296

/-- 2^16, the modulus of uint16_t arithmetic. -/
def U16 : Nat := 65536

/-! ## Guest-memory manager (src/vm.c) -/

/-- One entry of the VM's fixed slot table `struct vm_mem_region`
(include/vm.h): a used flag, guest-physical base, size, and the host
backing buffer's address. -/
structure MemRegion where
  used : Bool
  gpa : Nat
  size : Nat
  hva : Nat
  deriving DecidableEq

/-- The containment test of `vm_gpa_to_hva` (src/vm.c:239):
`gpa >= region->gpa && (gpa + size) <= (region->gpa + region->size)`,
with both uint64_t additions wrapping modulo 2^64. -/
def slotHit (r : MemRegion) (gpa size : Nat) : Bool :=
  r.used && decide (r.gpa ≤ gpa) &&
    decide ((gpa + size) % U64 ≤ (r.gpa + r.size) % U64)

/-- `vm_gpa_to_hva` (src/vm.c:229-247): scan the slot table in order,
skipping unused entries; on the first slot whose containment test passes,
return the slot's host base plus the offset of `gpa` in the slot; if no
slot passes, warn and return NULL (`none`). -/
def vm_gpa_to_hva : List MemRegion → Nat → Nat → Option Nat
  | [], _, _ => none
  | r :: rs, gpa, size =>
    if slotHit r gpa size then some (r.hva + (gpa - r.gpa))
    else vm_gpa_to_hva rs gpa size

/-- The specification's containment predicate: the (mathematical, non-
wrapping) range [gpa, gpa+n) lies wholly inside the used slot `r`. -/
def containedInSlot (r : MemRegion) (gpa n : Nat) : Prop :=
  r.used = true ∧ r.gpa ≤ gpa ∧ gpa + n ≤ r.gpa + r.size

instance (r : MemRegion) (gpa n : Nat) : Decidable (containedInSlot r gpa n) := by
  unfold containedInSlot
  infer_instance

/-! ## Device registration (src/vm.c, src/devices.c) -/

/-- The guest-physical range of a device: `gpa_start`/`gpa_end`
(inclusive) from `struct device` (include/devices.h). -/
structure DevRange where
  gpa_start : Nat
  gpa_end : Nat
  deriving DecidableEq

/-- VM_MAX_DEVICES (include/vm.h): capacity of the VM's device list. -/
def VM_MAX_DEVICES : Nat := 16

/-- `device_register` (src/devices.c:85-111): fail if the device list is
at capacity, otherwise append the device.  No overlap test is performed.
`vm_register_device` (src/vm.c:252-264) is identical with respect to the
list; the eventfd creation, an operating-system call, is modelled as
succeeding. -/
def device_register (devs : List DevRange) (d : DevRange) : Option (List DevRange) :=
  if devs.length ≥ VM_MAX_DEVICES then none
  else some (devs ++ [d])

/-- Two inclusive device ranges intersect. -/
def rangesOverlap (a b : DevRange) : Prop :=
  a.gpa_start ≤ b.gpa_end ∧ b.gpa_start ≤ a.gpa_end

instance (a b : DevRange) : Decidable (rangesOverlap a b) := by
  unfold rangesOverlap
  infer_instance

/-- The specification's invariant: registered device ranges are pairwise
disjoint. -/
def devicesDisjoint (l : List DevRange) : Prop :=
  l.Pairwise (fun a b => ¬ rangesOverlap a b)

instance (l : List DevRange) : Decidable (devicesDisjoint l) := by
  unfold devicesDisjoint
  infer_instance

/-! ## Theorems for claims C2 and C5 -/

/-- C2: the claim is false as stated.  With the single slot
[0, 0x100000) registered, the translation of the 2-byte range starting at
gpa = 2^64 - 1 succeeds — the C expression `gpa + size` wraps to 1 — even
though that range is not contained in any slot. -/
theorem c2_counterexample :
    (vm_gpa_to_hva [⟨true, 0, 1048576, 65536⟩] (U64 - 1) 2).isSome = true ∧
    ¬ containedInSlot ⟨true, 0, 1048576, 65536⟩ (U64 - 1) 2 := by
  decide

/-- C2 (amended): provided neither the requested range end `gpa + n` nor
any slot's range end wraps past 2^64, `vm_gpa_to_hva` returns a non-null
pointer exactly when [gpa, gpa+n) lies wholly inside a single registered
slot, and the returned pointer is that slot's host base plus
(gpa - slot.gpa). -/
theorem c2_gpa_to_hva_amended (regions : List MemRegion) (gpa n : Nat)
    (hg : gpa + n < U64) (hr : ∀ r ∈ regions, r.gpa + r.size < U64) :
    ((vm_gpa_to_hva regions gpa n).isSome ↔ ∃ r ∈ regions, containedInSlot r gpa n) ∧
    (∀ p, vm_gpa_to_hva regions gpa n = some p →
      ∃ r ∈ regions, containedInSlot r gpa n ∧ p = r.hva + (gpa - r.gpa)) := by
  induction regions with
  | nil => simp [vm_gpa_to_hva]
  | cons r rs ih =>
    have hrHead : r.gpa + r.size < U64 := hr r (List.mem_cons_self r rs)
    have hrTail : ∀ s ∈ rs, s.gpa + s.size < U64 :=
      fun s hs => hr s (List.mem_cons_of_mem r hs)
    have key : slotHit r gpa n = true ↔ containedInSlot r gpa n := by
      unfold slotHit containedInSlot
      rw [Nat.mod_eq_of_lt hg, Nat.mod_eq_of_lt hrHead]
      simp [Bool.and_eq_true, decide_eq_true_iff, and_assoc]
    obtain ⟨ih1, ih2⟩ := ih hrTail
    by_cases hhit : slotHit r gpa n
    · constructor
      · simp only [vm_gpa_to_hva, if_pos hhit, Option.isSome_some, true_iff]
        exact ⟨r, List.mem_cons_self r rs, key.mp hhit⟩
      · intro p hp
        simp only [vm_gpa_to_hva, if_pos hhit, Option.some.injEq] at hp
        exact ⟨r, List.mem_cons_self r rs, key.mp hhit, hp.symm⟩
    · have hnc : ¬ containedInSlot r gpa n := fun hc => hhit (key.mpr hc)
      constructor
      · simp only [vm_gpa_to_hva, if_neg hhit]
        rw [ih1]
        constructor
        · rintro ⟨s, hs, hcs⟩
          exact ⟨s, List.mem_cons_of_mem r hs, hcs⟩
        · rintro ⟨s, hs, hcs⟩
          rcases List.mem_cons.mp hs with hsr | hsrs
          · exact absurd (hsr ▸ hcs) hnc
          · exact ⟨s, hsrs, hcs⟩
      · intro p hp
        simp only [vm_gpa_to_hva, if_neg hhit] at hp
        obtain ⟨s, hs, hcs, hps⟩ := ih2 p hp
        exact ⟨s, List.mem_cons_of_mem r hs, hcs, hps⟩

/-- The two-slot configuration of the specification's scenario 6:
slots [0x0, 0x100000) and [0x200000, 0x300000). -/
def twoSlots : List MemRegion :=
  [⟨true, 0, 1048576, 4096⟩, ⟨true, 2097152, 1048576, 8192⟩]

/-- Witness for the amended C2 theorem at the specification's concrete
scenario: translation of [0xFF000, 0x100000) succeeds and translation of
[0xFF000, 0x101000) — which crosses into the unmapped hole — fails. -/
theorem c2_witness :
    (((vm_gpa_to_hva twoSlots 1044480 4096).isSome ↔
        ∃ r ∈ twoSlots, containedInSlot r 1044480 4096) ∧
      (∀ p, vm_gpa_to_hva twoSlots 1044480 4096 = some p →
        ∃ r ∈ twoSlots, containedInSlot r 1044480 4096 ∧ p = r.hva + (1044480 - r.gpa))) ∧
    (((vm_gpa_to_hva twoSlots 1044480 8192).isSome ↔
        ∃ r ∈ twoSlots, containedInSlot r 1044480 8192) ∧
      (∀ p, vm_gpa_to_hva twoSlots 1044480 8192 = some p →
        ∃ r ∈ twoSlots, containedInSlot r 1044480 8192 ∧ p = r.hva + (1044480 - r.gpa))) :=
  ⟨c2_gpa_to_hva_amended twoSlots 1044480 4096 (by decide) (by decide),
   c2_gpa_to_hva_amended twoSlots 1044480 8192 (by decide) (by decide)⟩

/-- The virtio-console device range, used as a concrete device below. -/
def devA : DevRange := ⟨167772160, 167776255⟩

/-- C5: the claim is false as stated.  Registering a device whose range
fully overlaps an already-registered device succeeds (only capacity is
checked), and the resulting list is not pairwise disjoint. -/
theorem c5_counterexample :
    rangesOverlap devA devA ∧
    device_register [devA] devA = some [devA, devA] ∧
    ¬ devicesDisjoint [devA, devA] := by
  decide

/-- C5 (amended): `device_register` fails exactly when the device list is
at capacity (16 entries); no overlap test is performed, the device is
appended regardless, and when the new range overlaps a registered one the
resulting list violates pairwise disjointness. -/
theorem c5_register_amended (devs : List DevRange) (d : DevRange) :
    (VM_MAX_DEVICES ≤ devs.length → device_register devs d = none) ∧
    (devs.length < VM_MAX_DEVICES → device_register devs d = some (devs ++ [d])) ∧
    (devs.length < VM_MAX_DEVICES → (∃ e ∈ devs, rangesOverlap e d) →
      ¬ devicesDisjoint (devs ++ [d])) := by
  refine ⟨fun hge => ?_, fun hlt => ?_, fun _ hover hdisj => ?_⟩
  · simp [device_register, hge]
  · simp [device_register, Nat.not_le.mpr hlt]
  · obtain ⟨e, he, hov⟩ := hover
    have := (List.pairwise_append.mp hdisj).2.2 e he d (List.mem_singleton_self d)
    exact this hov

/-- Witness for the amended C5 theorem: with one registered device and a
second, fully-overlapping device, registration succeeds and disjointness
fails. -/
theorem c5_witness :
    device_register [devA] devA = some ([devA] ++ [devA]) ∧
    ¬ devicesDisjoint ([devA] ++ [devA]) :=
  ⟨(c5_register_amended [devA] devA).2.1 (by decide),
   (c5_register_amended [devA] devA).2.2 (by decide) ⟨devA, by simp, by decide⟩⟩

/-! ## MMIO exit dispatch (src/vcpu.c) -/

/-- The MMIO payload of `struct hv_exit` (include/hypervisor.h): address,
access size, direction, and the data word. -/
structure MmioExit where
  addr : Nat
  size : Nat
  is_write : Bool
  data : Nat
  deriving DecidableEq

/-- A registered MMIO device as the dispatcher sees it: its inclusive
guest-physical range and its read/write callbacks.  The read callback
receives (offset, size, buffer contents on entry) and yields (return
code, buffer contents on exit); the C callback gets a pointer to a
LOCAL buffer of `vcpu_handle_mmio_exit` and no pointer into the exit
record.  The write callback receives (offset, data, size) and yields a
return code; the handlers in this repository never store through the
data pointer. -/
structure MmioDev where
  gpa_start : Nat
  gpa_end : Nat
  read : Nat → Nat → Nat → Int × Nat
  write : Nat → Nat → Nat → Int

/-- `vm_find_device_at_gpa` (src/vm.c:269-281): linear scan for the first
device whose inclusive range contains the address. -/
def vm_find_device_at_gpa (devs : List MmioDev) (gpa : Nat) : Option MmioDev :=
  devs.find? (fun d => decide (d.gpa_start ≤ gpa) && decide (gpa ≤ d.gpa_end))

/-- Observable outcome of `vcpu_handle_mmio_exit`: the return code, the
exit record after the call, the final contents of the local `data`
variable, whether a device callback ran, and whether the
unmapped-address warning was logged. -/
structure MmioOutcome where
  ret : Int
  exitRec : MmioExit
  buf : Nat
  invoked : Bool
  warned : Bool

/-- `vcpu_handle_mmio_exit` (src/vcpu.c:532-584): copy the exit record's
data into a local variable; look up the device; when none is found, warn
and return 0 without touching anything; on a write, call the write
callback with a pointer to the exit record's data; on a read, call the
read callback with a pointer to the LOCAL variable and never copy the
result back into the exit record. -/
def vcpu_handle_mmio_exit (devs : List MmioDev) (m : MmioExit) : MmioOutcome :=
  match vm_find_device_at_gpa devs m.addr with
  | none => ⟨0, m, m.data, false, true⟩
  | some d =>
    if m.is_write then
      ⟨d.write (m.addr - d.gpa_start) m.data m.size, m, m.data, true, false⟩
    else
      let r := d.read (m.addr - d.gpa_start) m.size m.data
      ⟨r.fst, m, r.snd, true, false⟩

/-! ## Theorems for claims C6 and C10 -/

/-- The unmapped MMIO read of the specification's scenario 5: a 4-byte
read at 0x0F000000 whose exit-record data word holds 5. -/
def unmappedRead : MmioExit := ⟨251658240, 4, false, 5⟩

/-- C6: the claim's zero-read part is false.  On an MMIO read at an
address with no device, the handler returns success and logs a warning,
but it never stores zero: both the exit record's data and the local
buffer keep their previous value (here 5). -/
theorem c6_counterexample :
    (vcpu_handle_mmio_exit [] unmappedRead).ret = 0 ∧
    (vcpu_handle_mmio_exit [] unmappedRead).warned = true ∧
    (vcpu_handle_mmio_exit [] unmappedRead).invoked = false ∧
    (vcpu_handle_mmio_exit [] unmappedRead).buf = 5 ∧
    (vcpu_handle_mmio_exit [] unmappedRead).exitRec.data = 5 ∧
    ¬ ((vcpu_handle_mmio_exit [] unmappedRead).buf = 0 ∨
       (vcpu_handle_mmio_exit [] unmappedRead).exitRec.data = 0) := by
  decide

/-- C6 (amended): for every MMIO access at an address where no registered
device's range contains the address, a warning is logged, no device
callback is invoked, and the handler returns success — but the data of
the access is left unchanged rather than being set to zero, so the value
the guest observes is whatever the exit record already held. -/
theorem c6_unmapped_mmio_amended (devs : List MmioDev) (m : MmioExit)
    (hnone : vm_find_device_at_gpa devs m.addr = none) :
    (vcpu_handle_mmio_exit devs m).ret = 0 ∧
    (vcpu_handle_mmio_exit devs m).invoked = false ∧
    (vcpu_handle_mmio_exit devs m).warned = true ∧
    (vcpu_handle_mmio_exit devs m).exitRec = m ∧
    (vcpu_handle_mmio_exit devs m).buf = m.data := by
  simp [vcpu_handle_mmio_exit, hnone]

/-- Witness for the amended C6 theorem at scenario 5's concrete read. -/
theorem c6_witness :
    (vcpu_handle_mmio_exit [] unmappedRead).ret = 0 ∧
    (vcpu_handle_mmio_exit [] unmappedRead).invoked = false ∧
    (vcpu_handle_mmio_exit [] unmappedRead).warned = true ∧
    (vcpu_handle_mmio_exit [] unmappedRead).exitRec = unmappedRead ∧
    (vcpu_handle_mmio_exit [] unmappedRead).buf = unmappedRead.data :=
  c6_unmapped_mmio_amended [] unmappedRead rfl

/-- C10: for every MMIO read exit dispatched to a registered device, the
dispatcher passes a local buffer to the device's read callback and leaves
the exit record unchanged — the value the read handler produces is never
copied back into the exit record. -/
theorem c10_read_leaves_exit_record (devs : List MmioDev) (m : MmioExit)
    (hw : m.is_write = false)
    (hdev : (vm_find_device_at_gpa devs m.addr).isSome = true) :
    (vcpu_handle_mmio_exit devs m).exitRec = m ∧
    (vcpu_handle_mmio_exit devs m).invoked = true := by
  obtain ⟨d, hd⟩ := Option.isSome_iff_exists.mp hdev
  simp [vcpu_handle_mmio_exit, hd, hw]

/-- A concrete device whose read callback yields value 7 with success. -/
def readsSeven : MmioDev :=
  ⟨167772160, 167776255, fun _ _ _ => (0, 7), fun _ _ _ => 0⟩

/-- Witness for C10: a 4-byte read at the base of a registered device;
the exit record is untouched even though the device produced 7. -/
theorem c10_witness :
    (vcpu_handle_mmio_exit [readsSeven] ⟨167772160, 4, false, 5⟩).exitRec =
      ⟨167772160, 4, false, 5⟩ ∧
    (vcpu_handle_mmio_exit [readsSeven] ⟨167772160, 4, false, 5⟩).invoked = true :=
  c10_read_leaves_exit_record [readsSeven] ⟨167772160, 4, false, 5⟩ rfl
    (by simp [vm_find_device_at_gpa, readsSeven, List.find?])

/-! ## vCPU exit counters (src/vcpu.c) -/

/-- The statistics fields of `struct vcpu` (include/vcpu.h) touched by
`vcpu_handle_exit`, plus the should-stop flag. -/
structure VcpuStats where
  exit_count : Nat
  io_count : Nat
  mmio_count : Nat
  halt_count : Nat
  shutdown_count : Nat
  exception_count : Nat
  canceled_count : Nat
  vtimer_count : Nat
  unknown_count : Nat
  should_stop : Bool
  deriving DecidableEq

/-- Counters of a freshly created vCPU (`vcpu_create`, src/vcpu.c): all
zero, should-stop clear. -/
def initStats : VcpuStats := ⟨0, 0, 0, 0, 0, 0, 0, 0, 0, false⟩

/-- The counter and should-stop effect of `vcpu_handle_exit`
(src/vcpu.c:297-486), by HV_EXIT reason code (include/hypervisor.h).
The total `exit_count` is incremented first, unconditionally; then the
switch increments at most one per-reason counter.  The sub-handlers it
calls (halt, io, mmio, shutdown, fail-entry) touch no counters;
shutdown and fail-entry set should-stop, which is folded in here.
Reasons 4 (EXTERNAL), 9-11, 15, 27-31, 71 and 73 increment no
per-reason counter; 5 (FAIL_ENTRY) and 7 (INTERNAL_ERROR) stop the vCPU
without incrementing one; the PowerPC/S390 block and the default case
count as unknown. -/
inductive CounterTag where
  | hlt | ioTag | mmioTag | shutdown | exception | canceled | vtimer | unknown | nothing
  deriving DecidableEq

/-- Which per-reason counter each case of the switch increments.
HLT=1, IO=2, MMIO=3, SHUTDOWN=6, EXCEPTION=8, SYSTEM_EVENT=22,
ARM_EXCEPTION=70, ARM_MMIO=72, CANCELED=60 and VTIMER=61 each bump one
counter; the PowerPC/S390 block (12-14, 16-21, 23-26) and the default
case bump the unknown counter; every other handled reason (4, 5, 7,
9-11, 15, 27-31, 71, 73) bumps none. -/
def reasonTag (reason : Int) : CounterTag :=
  if reason = 1 then .hlt
  else if reason = 2 then .ioTag
  else if reason = 3 then .mmioTag
  else if reason = 4 then .nothing
  else if reason = 6 then .shutdown
  else if reason = 5 then .nothing
  else if reason = 7 then .nothing
  else if reason = 8 then .exception
  else if reason = 9 ∨ reason = 10 ∨ reason = 11 ∨ reason = 15 then .nothing
  else if reason = 22 then .shutdown
  else if reason = 27 ∨ reason = 28 ∨ reason = 31 ∨ reason = 29 ∨ reason = 30 then .nothing
  else if reason = 70 then .exception
  else if reason = 71 then .nothing
  else if reason = 72 then .mmioTag
  else if reason = 73 then .nothing
  else if reason = 60 then .canceled
  else if reason = 61 then .vtimer
  else .unknown

/-- Which cases of the switch set should-stop: SHUTDOWN=6,
FAIL_ENTRY=5 (via `vcpu_handle_fail_entry`), INTERNAL_ERROR=7,
EXCEPTION=8, SYSTEM_EVENT=22 and CANCELED=60. -/
def reasonStops (reason : Int) : Bool :=
  reason = 6 || reason = 5 || reason = 7 || reason = 8 || reason = 22 || reason = 60

/-- Increment the counter a tag designates. -/
def bumpTag (t : VcpuStats) : CounterTag → VcpuStats
  | .hlt => { t with halt_count := t.halt_count + 1 }
  | .ioTag => { t with io_count := t.io_count + 1 }
  | .mmioTag => { t with mmio_count := t.mmio_count + 1 }
  | .shutdown => { t with shutdown_count := t.shutdown_count + 1 }
  | .exception => { t with exception_count := t.exception_count + 1 }
  | .canceled => { t with canceled_count := t.canceled_count + 1 }
  | .vtimer => { t with vtimer_count := t.vtimer_count + 1 }
  | .unknown => { t with unknown_count := t.unknown_count + 1 }
  | .nothing => t

/-- `vcpu_handle_exit`, counter effect: the total is incremented
unconditionally on entry, then the switch bumps at most one per-reason
counter (`reasonTag`) and possibly sets should-stop (`reasonStops`). -/
def vcpu_handle_exit_counters (s : VcpuStats) (reason : Int) : VcpuStats :=
  let t := bumpTag { s with exit_count := s.exit_count + 1 } (reasonTag reason)
  if reasonStops reason then { t with should_stop := true } else t

/-- The sum of the per-reason exit counters. -/
def statsSum (s : VcpuStats) : Nat :=
  s.io_count + s.mmio_count + s.halt_count + s.shutdown_count +
    s.exception_count + s.canceled_count + s.vtimer_count + s.unknown_count

/-- C7: the claim is false.  Handling a single external-interrupt exit
(HV_EXIT_EXTERNAL = 4) from a fresh vCPU increments the total exit
counter but no per-reason counter, so total ≠ Σ per-reason. -/
theorem c7_counterexample :
    (vcpu_handle_exit_counters initStats 4).exit_count = 1 ∧
    statsSum (vcpu_handle_exit_counters initStats 4) = 0 ∧
    ¬ ((vcpu_handle_exit_counters initStats 4).exit_count =
        statsSum (vcpu_handle_exit_counters initStats 4)) := by
  decide

/-- Bumping a per-reason counter never touches the total exit counter. -/
theorem bumpTag_exit_count (t : VcpuStats) (tag : CounterTag) :
    (bumpTag t tag).exit_count = t.exit_count := by
  cases tag <;> rfl

/-- Bumping a per-reason counter adds at most one to the per-reason sum. -/
theorem bumpTag_sum (t : VcpuStats) (tag : CounterTag) :
    statsSum (bumpTag t tag) ≤ statsSum t + 1 := by
  cases tag <;> simp [bumpTag, statsSum] <;> omega

/-- Each handled exit adds exactly one to the total and at most one to
the per-reason sum. -/
theorem handle_exit_counters_step (s : VcpuStats) (reason : Int) :
    (vcpu_handle_exit_counters s reason).exit_count = s.exit_count + 1 ∧
    statsSum (vcpu_handle_exit_counters s reason) ≤ statsSum s + 1 := by
  unfold vcpu_handle_exit_counters
  cases hstop : reasonStops reason
  · rw [if_neg (by simp [hstop])]
    exact ⟨bumpTag_exit_count _ _, bumpTag_sum _ _⟩
  · rw [if_pos (by simp [hstop])]
    exact ⟨bumpTag_exit_count _ _, bumpTag_sum _ _⟩

/-- C7 (amended): over any sequence of exits handled by
`vcpu_handle_exit`, the dispatcher increments the total exit counter
exactly once per exit and at most one per-reason counter, so the total
equals the number of handled exits and dominates the sum of the
per-reason counters; equality fails because several reasons (external
interrupt, interrupt window, TPR and MSR accesses, hypercall, dirty-log,
bus-lock, ARM trap and IRQ, fail-entry, internal error) increment no
per-reason counter.  (The worker loop in `vcpu_thread_func` additionally
increments the total a second time per iteration, which also breaks
equality.) -/
theorem c7_exit_counters_amended (reasons : List Int) :
    (reasons.foldl vcpu_handle_exit_counters initStats).exit_count = reasons.length ∧
    statsSum (reasons.foldl vcpu_handle_exit_counters initStats) ≤ reasons.length := by
  suffices h : ∀ (rs : List Int) (s : VcpuStats),
      (rs.foldl vcpu_handle_exit_counters s).exit_count = s.exit_count + rs.length ∧
      statsSum (rs.foldl vcpu_handle_exit_counters s) ≤ statsSum s + rs.length by
    have := h reasons initStats
    simpa [initStats, statsSum] using this
  intro rs
  induction rs with
  | nil => intro s; simp
  | cons r rest ih =>
    intro s
    obtain ⟨h1, h2⟩ := handle_exit_counters_step s r
    obtain ⟨ih1, ih2⟩ := ih (vcpu_handle_exit_counters s r)
    constructor
    · simp only [List.foldl_cons, ih1, h1, List.length_cons]
      omega
    · simp only [List.foldl_cons, List.length_cons]
      omega

/-! ## Virtqueue engine (src/devices/virtio.c, include/virtio.h) -/

/-- `struct vring_desc`: guest-physical buffer address, length, flags,
and the chain's next descriptor index. -/
structure VRingDesc where
  addr : Nat
  len : Nat
  flags : Nat
  next : Nat
  deriving DecidableEq

instance : Inhabited VRingDesc := ⟨⟨0, 0, 0, 0⟩⟩

/-- `struct vring_avail`: flags, the producer index, and the ring of
descriptor-chain head indices, all guest-written. -/
structure VRingAvail where
  flags : Nat
  idx : Nat
  ring : List Nat
  deriving DecidableEq

/-- `struct vring_used_elem`: completed chain head id and written
length. -/
structure VRingUsedElem where
  id : Nat
  len : Nat
  deriving DecidableEq

/-- `struct vring_used`: flags, the device-side producer index, and the
ring of completion entries. -/
structure VRingUsed where
  flags : Nat
  idx : Nat
  ring : List VRingUsedElem
  deriving DecidableEq

/-- `struct virtqueue` (include/virtio.h:73-97).  The three mapped ring
pointers are modelled as `Option` values holding the pointed-to ring
contents: `none` is a NULL pointer.  An out-of-bounds C array read is
modelled by `List.getD` with a default element (the C code would read
adjacent memory). -/
structure Virtqueue where
  index : Nat
  size : Nat
  desc_gpa : Nat
  avail_gpa : Nat
  used_gpa : Nat
  desc : Option (List VRingDesc)
  avail : Option VRingAvail
  used : Option VRingUsed
  last_avail_idx : Nat
  last_used_idx : Nat
  ready : Bool
  deriving DecidableEq

/-- `virtqueue_pop` (src/devices/virtio.c:91-113): return NULL when the
queue is not ready or a ring pointer is NULL or no new descriptor is
available; otherwise read the descriptor index stored at ring position
`last_avail_idx % size`, take the descriptor table entry at THAT RAW
index, advance `last_avail_idx` (a uint16), and return the descriptor
together with its index (the C function returns `&vq->desc[desc_idx]`;
the index is the pointer's offset in the table). -/
def virtqueue_pop (vq : Virtqueue) : Option (Nat × VRingDesc) × Virtqueue :=
  match vq.desc, vq.avail with
  | some descTbl, some av =>
    if vq.ready then
      if vq.last_avail_idx = av.idx then (none, vq)
      else
        let descIdx := av.ring.getD (vq.last_avail_idx % vq.size) 0
        (some (descIdx, descTbl.getD descIdx default),
          { vq with last_avail_idx := (vq.last_avail_idx + 1) % U16 })
    else (none, vq)
  | _, _ => (none, vq)

/-- `virtqueue_push` (src/devices/virtio.c:118-137): when the queue is
ready and the used ring is mapped, store the (id, len) pair at ring
position `used->idx % size`, increment `used->idx` and `last_used_idx`
(both uint16), and then signal the device's IRQ line through
`virtqueue_notify` / `device_assert_irq`; the Bool records that the IRQ
was asserted.  An out-of-bounds store is dropped by `List.set`, matching
no observable ring change. -/
def virtqueue_push (vq : Virtqueue) (id len : Nat) : Virtqueue × Bool :=
  match vq.used with
  | some u =>
    if vq.ready then
      let pos := u.idx % vq.size
      let u2 : VRingUsed :=
        { u with ring := u.ring.set pos ⟨id % U32, len % U32⟩, idx := (u.idx + 1) % U16 }
      ({ vq with used := some u2, last_used_idx := (vq.last_used_idx + 1) % U16 }, true)
    else (vq, false)
  | none => (vq, false)

/-- The used-ring producer index as the guest would read it (0 when the
ring is unmapped). -/
def vqUsedIdx (vq : Virtqueue) : Nat :=
  (vq.used.map VRingUsed.idx).getD 0

/-- The used-ring entry at a position, as the guest would read it. -/
def vqUsedEntry (vq : Virtqueue) (pos : Nat) : Option VRingUsedElem :=
  vq.used.bind (fun u => u.ring.get? pos)

/-! ## Theorems for claims C8 and C9 -/

/-- A ready queue of size 4 whose available ring carries the
guest-written descriptor index 7 at the position about to be consumed. -/
def oversizedIdxQueue : Virtqueue :=
  { index := 0, size := 4, desc_gpa := 4096, avail_gpa := 8192, used_gpa := 12288
    , desc := some [default, default, default, default]
    , avail := some ⟨0, 1, [7, 0, 0, 0]⟩
    , used := some ⟨0, 0, [⟨0, 0⟩, ⟨0, 0⟩, ⟨0, 0⟩, ⟨0, 0⟩]⟩
    , last_avail_idx := 0, last_used_idx := 0, ready := true }

/-- C8: the claim is false.  Only the available-ring POSITION is reduced
modulo the queue size; the descriptor index read from the ring is used
raw, so a guest-written entry of 7 on a 4-entry queue makes pop index
descriptor-table slot 7, outside the queue's size. -/
theorem c8_counterexample :
    ((virtqueue_pop oversizedIdxQueue).fst.map Prod.fst) = some 7 ∧
    ¬ (7 < oversizedIdxQueue.size) := by
  decide

/-- C8 (amended): `virtqueue_pop` reduces only the ring position
(`last_avail_idx % size`); the descriptor index it returns is the raw
guest-written ring entry, unreduced, and it stays within the descriptor
table's `size` entries only under the extra assumption that every entry
the guest wrote into the available ring is below the queue size. -/
theorem c8_pop_amended (vq : Virtqueue) (descTbl : List VRingDesc) (av : VRingAvail)
    (hdesc : vq.desc = some descTbl) (havail : vq.avail = some av)
    (hready : vq.ready = true) (hnew : vq.last_avail_idx ≠ av.idx)
    (hpos : vq.last_avail_idx % vq.size < av.ring.length) :
    ((virtqueue_pop vq).fst.map Prod.fst) =
      some (av.ring.getD (vq.last_avail_idx % vq.size) 0) ∧
    ((∀ e ∈ av.ring, e < vq.size) →
      ∀ i d, (virtqueue_pop vq).fst = some (i, d) → i < vq.size) := by
  constructor
  · simp [virtqueue_pop, hdesc, havail, hready, hnew]
  · intro hbound i d hpop
    have hmem : av.ring.getD (vq.last_avail_idx % vq.size) 0 ∈ av.ring := by
      rw [List.getD_eq_getElem av.ring 0 hpos]
      exact List.getElem_mem hpos
    have hi : i = av.ring.getD (vq.last_avail_idx % vq.size) 0 := by
      simp [virtqueue_pop, hdesc, havail, hready, hnew] at hpop
      have hgd : av.ring.getD (vq.last_avail_idx % vq.size) 0 =
          (av.ring[vq.last_avail_idx % vq.size]?).getD 0 := by
        rw [List.getD_eq_getD_get?, List.get?_eq_getElem?]
      rw [hgd]
      exact hpop.1.symm
    exact hi ▸ hbound _ hmem

/-- A ready queue of size 4 whose available ring holds only in-bounds
descriptor indices. -/
def inBoundsQueue : Virtqueue :=
  { oversizedIdxQueue with avail := some ⟨0, 1, [2, 0, 0, 0]⟩ }

/-- Witness for the amended C8 theorem: on a queue whose ring entries
are all below the size, pop returns ring entry 2, which is in bounds. -/
theorem c8_witness :
    (((virtqueue_pop inBoundsQueue).fst.map Prod.fst) =
      some ((⟨0, 1, [2, 0, 0, 0]⟩ : VRingAvail).ring.getD
        (inBoundsQueue.last_avail_idx % inBoundsQueue.size) 0)) ∧
    ((∀ e ∈ (⟨0, 1, [2, 0, 0, 0]⟩ : VRingAvail).ring, e < inBoundsQueue.size) →
      ∀ i d, (virtqueue_pop inBoundsQueue).fst = some (i, d) → i < inBoundsQueue.size) :=
  c8_pop_amended inBoundsQueue [default, default, default, default]
    ⟨0, 1, [2, 0, 0, 0]⟩ rfl rfl rfl (by decide) (by decide)

/-- The push on a ready queue with a mapped used ring, as an explicit
state equation. -/
theorem virtqueue_push_eq (vq : Virtqueue) (u : VRingUsed) (id len : Nat)
    (hready : vq.ready = true) (hused : vq.used = some u) :
    virtqueue_push vq id len =
      ({ vq with
          used := some
            { u with
              ring := u.ring.set (u.idx % vq.size) ⟨id % U32, len % U32⟩,
              idx := (u.idx + 1) % U16 },
          last_used_idx := (vq.last_used_idx + 1) % U16 },
        true) := by
  simp [virtqueue_push, hused, hready]

/-- C9: `virtqueue_push` on a ready queue with a mapped used ring stores
the (id, len) pair at used-ring position `used.idx % size`, increments
`used.idx` by exactly one modulo 2^16, increments the engine's
`last_used_idx` in lock-step, and asserts the device's IRQ afterwards;
consequently `used.idx − last_used_idx` is preserved modulo 2^16, and in
particular it is still zero right after the push whenever it was zero
before. -/
theorem c9_push (vq : Virtqueue) (u : VRingUsed) (id len : Nat)
    (hready : vq.ready = true) (hused : vq.used = some u)
    (hpos : u.idx % vq.size < u.ring.length)
    (hid : id < U32) (hlen : len < U32)
    (hu16 : u.idx < U16) (hl16 : vq.last_used_idx < U16) :
    vqUsedEntry (virtqueue_push vq id len).fst (u.idx % vq.size) = some ⟨id, len⟩ ∧
    vqUsedIdx (virtqueue_push vq id len).fst = (u.idx + 1) % U16 ∧
    (virtqueue_push vq id len).fst.last_used_idx = (vq.last_used_idx + 1) % U16 ∧
    (virtqueue_push vq id len).snd = true ∧
    ((u.idx + U16 - vq.last_used_idx) % U16 = 0 →
      (vqUsedIdx (virtqueue_push vq id len).fst + U16 -
        (virtqueue_push vq id len).fst.last_used_idx) % U16 = 0) := by
  have hres := virtqueue_push_eq vq u id len hready hused
  rw [hres]
  have hset := List.getElem?_set_eq_of_lt
    (l := u.ring) (n := u.idx % vq.size) (⟨id, len⟩ : VRingUsedElem) hpos
  refine ⟨?_, ?_, ?_, rfl, ?_⟩
  · simp [vqUsedEntry, List.get?_eq_getElem?, hset,
      Nat.mod_eq_of_lt hid, Nat.mod_eq_of_lt hlen]
  · simp [vqUsedIdx]
  · rfl
  · intro hzero
    simp only [vqUsedIdx, Option.map, Option.getD]
    unfold U16 at hzero hu16 hl16 ⊢
    omega

/-- A ready queue with an empty backlog and a synchronized used index,
ready to absorb one push. -/
def syncedQueue : Virtqueue :=
  { index := 0, size := 2, desc_gpa := 4096, avail_gpa := 8192, used_gpa := 12288
    , desc := some [default, default]
    , avail := some ⟨0, 0, [0, 0]⟩
    , used := some ⟨0, 5, [⟨0, 0⟩, ⟨0, 0⟩]⟩
    , last_avail_idx := 0, last_used_idx := 5, ready := true }

/-- Witness for C9: pushing (id 3, len 7) onto the synchronized queue
stores the entry at position 5 % 2 = 1, advances used.idx to 6, keeps
the difference zero, and asserts the IRQ. -/
theorem c9_witness :
    vqUsedEntry (virtqueue_push syncedQueue 3 7).fst 1 = some ⟨3, 7⟩ ∧
    vqUsedIdx (virtqueue_push syncedQueue 3 7).fst = 6 ∧
    (virtqueue_push syncedQueue 3 7).fst.last_used_idx = 6 ∧
    (virtqueue_push syncedQueue 3 7).snd = true ∧
    ((5 + U16 - 5) % U16 = 0 →
      (vqUsedIdx (virtqueue_push syncedQueue 3 7).fst + U16 -
        (virtqueue_push syncedQueue 3 7).fst.last_used_idx) % U16 = 0) :=
  c9_push syncedQueue ⟨0, 5, [⟨0, 0⟩, ⟨0, 0⟩]⟩ 3 7 rfl rfl (by decide)
    (by decide) (by decide) (by decide) (by decide)

/-! ## Virtio legacy-MMIO transport (src/devices/virtio.c) -/

/-- `struct virtio_dev` (include/virtio.h:124-146), the transport-level
state: identity, feature words, status byte, the queues, and the
device's IRQ signalling state.  The nullable `queue_notify` and
`config_write` callbacks are modelled as `Option` function values; the
IRQ eventfd is abstracted to an asserted flag (`device_assert_irq`
posts it, `device_deassert_irq` drains it). -/
structure VirtioDev where
  device_id : Nat
  device_features : Nat
  driver_features : Nat
  device_status : Nat
  queues : List Virtqueue
  num_queues : Nat
  irq_asserted : Bool

/-- `virtio_mmio_write` (src/devices/virtio.c:225-297).  Non-4-byte
writes fail with -1.  Offset 0x18 stores the driver features; 0x34
invokes the device's notify handler on queue `val & 0xFF` when one is
installed; 0x38 acknowledges (deasserts) the IRQ; 0x40 stores the
device status (a uint8_t field).  The cases 0x14, 0x1C, 0x20, 0x24,
0x28 and 0x30 — including QUEUE SELECT and QUEUE READY — are empty
stubs marked "not implemented yet" in the source and change nothing.
Offsets at or above 0x100 go to the personality's config-write callback
when present. -/
def virtio_mmio_write
    (notif : Option (VirtioDev → Nat → VirtioDev × Int))
    (cfgw : Option (VirtioDev → Nat → Nat → Nat → VirtioDev × Int))
    (vdev : VirtioDev) (offset val size : Nat) : VirtioDev × Int :=
  if size ≠ 4 then (vdev, -1)
  else if offset = 20 then (vdev, 0)
  else if offset = 24 then ({ vdev with driver_features := val % U32 }, 0)
  else if offset = 28 then (vdev, 0)
  else if offset = 32 then (vdev, 0)
  else if offset = 36 then (vdev, 0)
  else if offset = 40 then (vdev, 0)
  else if offset = 48 then (vdev, 0)
  else if offset = 52 then
    match notif with
    | some f => f vdev (val % U32 % 256)
    | none => (vdev, 0)
  else if offset = 56 then ({ vdev with irq_asserted := false }, 0)
  else if offset = 64 then ({ vdev with device_status := val % 256 }, 0)
  else if 256 ≤ offset then
    match cfgw with
    | some f => f vdev (offset - 256) val size
    | none => (vdev, 0)
  else (vdev, 0)

/-! ## Theorem for claim C1 -/

/-- C1: the code contradicts the claim.  A 4-byte write of any value —
in particular 1 — to the queue-ready register at offset 0x030 is an
empty stub: the device state is returned unchanged (no GPA is resolved,
no host pointer is cached, no ready flag is set) and the call reports
success.  In particular every queue's ready flag and ring pointers are
exactly what they were before the write, so a queue that was not ready
stays not ready. -/
theorem c1_queue_ready_write_is_stub
    (notif : Option (VirtioDev → Nat → VirtioDev × Int))
    (cfgw : Option (VirtioDev → Nat → Nat → Nat → VirtioDev × Int))
    (vdev : VirtioDev) (val : Nat) :
    virtio_mmio_write notif cfgw vdev 48 val 4 = (vdev, 0) ∧
    ((virtio_mmio_write notif cfgw vdev 48 val 4).fst.queues.map Virtqueue.ready) =
      vdev.queues.map Virtqueue.ready ∧
    ((virtio_mmio_write notif cfgw vdev 48 val 4).fst.queues.map Virtqueue.desc) =
      vdev.queues.map Virtqueue.desc := by
  refine ⟨rfl, rfl, rfl⟩

/-! ## Guest memory as bytes

Guest memory is a byte function indexed by guest-physical address.
`vm_gpa_to_hva` maps a slot's guest range bijectively onto its backing
buffer (base + (gpa - slot.gpa)), so a C read or write through a
translated host pointer is modelled as a read or write at the
corresponding guest-physical address; translatability itself is checked
with `vm_gpa_to_hva` on the slot table. -/

/-- The byte at each address of the given range. -/
def readBytes (mem : Nat → Nat) (addr n : Nat) : List Nat :=
  (List.range n).map (fun i => mem (addr + i) % 256)

/-- A single 64 KiB memory slot at guest-physical 0 for the block
scenarios. -/
def blkRegions : List MemRegion := [⟨true, 0, 65536, 0⟩]

/-- Outcome of a console queue notification: the queue after the loop,
the bytes written to standard output, and the C return value. -/
structure ConsoleNotifyResult where
  vq : Virtqueue
  out : List Nat
  ret : Int

/-- The body of `virtio_console_queue_notify`'s while loop
(src/devices/virtio-console.c:98-116), with explicit fuel.  Each
iteration pops one descriptor; when the pop yields NULL the loop ends.
A descriptor whose buffer does not translate is skipped with an error
log and NO push (`continue`); otherwise its `len` bytes are written to
standard output and the descriptor is completed with
`virtqueue_push(vq, desc - vq->desc, len)` — the pointer difference is
the descriptor's index, and the written length pushed is `len`, the
descriptor's own length.  The fuel 65536 below is exact, not a
truncation: `last_avail_idx` is a uint16 advancing by one per pop, so
it meets the available index (the loop's exit condition) within 2^16
iterations. -/
def console_notify_loop (regions : List MemRegion) (mem : Nat → Nat) :
    Nat → Virtqueue → List Nat → ConsoleNotifyResult
  | 0, vq, out => ⟨vq, out, 0⟩
  | fuel + 1, vq, out =>
    match virtqueue_pop vq with
    | (none, vq1) => ⟨vq1, out, 0⟩
    | (some (i, d), vq1) =>
      if (vm_gpa_to_hva regions d.addr d.len).isSome = false then
        console_notify_loop regions mem fuel vq1 out
      else
        let pushed := virtqueue_push vq1 i d.len
        console_notify_loop regions mem fuel pushed.fst (out ++ readBytes mem d.addr d.len)

/-- `virtio_console_queue_notify` (src/devices/virtio-console.c:88-119). -/
def virtio_console_queue_notify (regions : List MemRegion) (mem : Nat → Nat)
    (vq : Virtqueue) : ConsoleNotifyResult :=
  console_notify_loop regions mem U16 vq []

/-- One unfolding of the console notify loop. -/
theorem console_notify_loop_succ (regions : List MemRegion) (mem : Nat → Nat)
    (fuel : Nat) (vq : Virtqueue) (out : List Nat) :
    console_notify_loop regions mem (fuel + 1) vq out =
      match virtqueue_pop vq with
      | (none, vq1) => ⟨vq1, out, 0⟩
      | (some (i, d), vq1) =>
        if (vm_gpa_to_hva regions d.addr d.len).isSome = false then
          console_notify_loop regions mem fuel vq1 out
        else
          console_notify_loop regions mem fuel (virtqueue_push vq1 i d.len).fst
            (out ++ readBytes mem d.addr d.len) := rfl

/-! ## Theorems for claim C4 -/

/-- Guest memory holding the two bytes of "ok" at 0x100. -/
def conMem : Nat → Nat := fun a => if a = 256 then 111 else if a = 257 then 107 else 0

/-- A ready queue posting one two-byte descriptor (index 0) at 0x100. -/
def conQueue : Virtqueue :=
  { index := 0, size := 4, desc_gpa := 4096, avail_gpa := 8192, used_gpa := 12288
    , desc := some [⟨256, 2, 0, 0⟩, ⟨0, 0, 0, 0⟩, ⟨0, 0, 0, 0⟩, ⟨0, 0, 0, 0⟩]
    , avail := some ⟨0, 1, [0, 0, 0, 0]⟩
    , used := some ⟨0, 0, [⟨9, 9⟩, ⟨9, 9⟩, ⟨9, 9⟩, ⟨9, 9⟩]⟩
    , last_avail_idx := 0, last_used_idx := 0, ready := true }

/-- C4: the claim is false in its written-length part.  Notifying the
console queue with one two-byte descriptor writes the two bytes to
standard output, but completes the descriptor with a used-ring entry
whose len is the descriptor's length 2, not the claimed 0. -/
theorem c4_counterexample :
    (virtio_console_queue_notify blkRegions conMem conQueue).out = [111, 107] ∧
    vqUsedEntry (virtio_console_queue_notify blkRegions conMem conQueue).vq 0 =
      some ⟨0, 2⟩ ∧
    ¬ ((vqUsedEntry (virtio_console_queue_notify blkRegions conMem conQueue).vq 0).map
        VRingUsedElem.len = some 0) := by
  decide

/-- `virtqueue_pop` on a ready queue with mapped rings and a pending
descriptor, as an explicit equation: it returns the raw ring entry at
position `last_avail_idx % size` together with the descriptor-table
entry at that index, and advances `last_avail_idx` modulo 2^16. -/
theorem virtqueue_pop_eq (vq : Virtqueue) (descTbl : List VRingDesc) (av : VRingAvail)
    (hdesc : vq.desc = some descTbl) (havail : vq.avail = some av)
    (hready : vq.ready = true) (hne : vq.last_avail_idx ≠ av.idx) :
    virtqueue_pop vq =
      (some ((av.ring[vq.last_avail_idx % vq.size]?).getD 0,
        (descTbl[(av.ring[vq.last_avail_idx % vq.size]?).getD 0]?).getD default),
       { vq with last_avail_idx := (vq.last_avail_idx + 1) % U16 }) := by
  simp [virtqueue_pop, hdesc, havail, hready, hne]

/-- `virtqueue_pop` on a drained queue returns NULL and changes
nothing. -/
theorem virtqueue_pop_none_eq (vq : Virtqueue) (descTbl : List VRingDesc) (av : VRingAvail)
    (hdesc : vq.desc = some descTbl) (havail : vq.avail = some av)
    (hready : vq.ready = true) (heq : vq.last_avail_idx = av.idx) :
    virtqueue_pop vq = (none, vq) := by
  simp [virtqueue_pop, hdesc, havail, hready, heq]

/-- `virtqueue_push` touches only the used ring and `last_used_idx`:
the descriptor table, available ring, ready flag, `last_avail_idx` and
size are returned unchanged. -/
theorem virtqueue_push_fields (q : Virtqueue) (id len : Nat) :
    (virtqueue_push q id len).fst.desc = q.desc ∧
    (virtqueue_push q id len).fst.avail = q.avail ∧
    (virtqueue_push q id len).fst.ready = q.ready ∧
    (virtqueue_push q id len).fst.last_avail_idx = q.last_avail_idx ∧
    (virtqueue_push q id len).fst.size = q.size := by
  cases hu : q.used with
  | none => simp [virtqueue_push, hu]
  | some u => by_cases hr : q.ready <;> simp [virtqueue_push, hu, hr]

/-- `virtqueue_push` commutes with overwriting `last_avail_idx`. -/
theorem virtqueue_push_set_last_avail (q : Virtqueue) (x id len : Nat) :
    (virtqueue_push { q with last_avail_idx := x } id len).fst =
      { (virtqueue_push q id len).fst with last_avail_idx := x } := by
  cases hu : q.used with
  | none => by_cases hr : q.ready <;> simp [virtqueue_push, hu, hr]
  | some u => by_cases hr : q.ready <;> simp [virtqueue_push, hu, hr]

/-- The sequence of descriptor-chain head indices a notify loop starting
at `la` consumes from the available ring: one ring entry per pending
descriptor, read at position `la % size`, with `la` advancing modulo
2^16 — exactly mirroring `virtqueue_pop`'s bookkeeping. -/
def availHeads (av : VRingAvail) (size : Nat) : Nat → Nat → List Nat
  | _, 0 => []
  | la, n + 1 =>
    (av.ring[la % size]?).getD 0 :: availHeads av size ((la + 1) % U16) n

/-- Pair each consumed head index with its descriptor-table entry. -/
def headDescs (descTbl : List VRingDesc) (heads : List Nat) : List (Nat × VRingDesc) :=
  heads.map (fun i => (i, (descTbl[i]?).getD default))

/-- The consumed descriptors whose buffers translate — the ones the
console loop completes; untranslatable ones are skipped. -/
def goodDescs (regions : List MemRegion) (descTbl : List VRingDesc) (av : VRingAvail)
    (size la n : Nat) : List (Nat × VRingDesc) :=
  (headDescs descTbl (availHeads av size la n)).filter
    (fun p => (vm_gpa_to_hva regions p.snd.addr p.snd.len).isSome)

/-- The bytes the loop writes to standard output: the translated
descriptors' buffer contents, in consumption order. -/
def outputBytes (mem : Nat → Nat) (g : List (Nat × VRingDesc)) : List Nat :=
  (g.map (fun p => readBytes mem p.snd.addr p.snd.len)).flatten

/-- Complete a list of descriptors in order, each by a used-ring push
whose id is the descriptor's index and whose len is the descriptor's
own length — the exact calls `virtio_console_queue_notify` makes. -/
def completeAll (g : List (Nat × VRingDesc)) (q : Virtqueue) : Virtqueue :=
  g.foldl (fun q p => (virtqueue_push q p.fst p.snd.len).fst) q

theorem completeAll_cons (p : Nat × VRingDesc) (g : List (Nat × VRingDesc)) (q : Virtqueue) :
    completeAll (p :: g) q = completeAll g (virtqueue_push q p.fst p.snd.len).fst := rfl

theorem outputBytes_cons (mem : Nat → Nat) (p : Nat × VRingDesc)
    (g : List (Nat × VRingDesc)) :
    outputBytes mem (p :: g) = readBytes mem p.snd.addr p.snd.len ++ outputBytes mem g := by
  simp [outputBytes]

/-- One loop iteration when a descriptor is pending. -/
theorem console_notify_loop_step_some (regions : List MemRegion) (mem : Nat → Nat)
    (fuel : Nat) (vq : Virtqueue) (out : List Nat) (i : Nat) (d : VRingDesc)
    (vq1 : Virtqueue) (hpop : virtqueue_pop vq = (some (i, d), vq1)) :
    console_notify_loop regions mem (fuel + 1) vq out =
      if (vm_gpa_to_hva regions d.addr d.len).isSome = false then
        console_notify_loop regions mem fuel vq1 out
      else
        console_notify_loop regions mem fuel (virtqueue_push vq1 i d.len).fst
          (out ++ readBytes mem d.addr d.len) := by
  rw [console_notify_loop_succ, hpop]

/-- One loop iteration when the queue is drained. -/
theorem console_notify_loop_step_none (regions : List MemRegion) (mem : Nat → Nat)
    (fuel : Nat) (vq : Virtqueue) (out : List Nat) (vq1 : Virtqueue)
    (hpop : virtqueue_pop vq = (none, vq1)) :
    console_notify_loop regions mem (fuel + 1) vq out = ⟨vq1, out, 0⟩ := by
  rw [console_notify_loop_succ, hpop]

/-- Completing descriptors never moves `last_avail_idx`. -/
theorem completeAll_last_avail (g : List (Nat × VRingDesc)) :
    ∀ q : Virtqueue, (completeAll g q).last_avail_idx = q.last_avail_idx := by
  induction g with
  | nil => intro q; rfl
  | cons p rest ih =>
    intro q
    calc (completeAll (p :: rest) q).last_avail_idx
        = (completeAll rest (virtqueue_push q p.fst p.snd.len).fst).last_avail_idx := rfl
      _ = (virtqueue_push q p.fst p.snd.len).fst.last_avail_idx := ih _
      _ = q.last_avail_idx := (virtqueue_push_fields q p.fst p.snd.len).2.2.2.1

/-- The console loop, for any fuel at least the pending count: it
drains every pending descriptor, appends the translated descriptors'
bytes to the output, and completes exactly the translated descriptors,
in order, each with a push of (its index, its length).  The pending
count is the uint16 distance from `last_avail_idx` to the available
index. -/
theorem console_loop_spec (regions : List MemRegion) (mem : Nat → Nat)
    (descTbl : List VRingDesc) (av : VRingAvail) :
    ∀ (fuel : Nat) (vq : Virtqueue) (out : List Nat),
      vq.desc = some descTbl → vq.avail = some av → vq.ready = true →
      vq.last_avail_idx < U16 → av.idx < U16 →
      (av.idx + U16 - vq.last_avail_idx) % U16 ≤ fuel →
      console_notify_loop regions mem fuel vq out =
        ⟨completeAll
            (goodDescs regions descTbl av vq.size vq.last_avail_idx
              ((av.idx + U16 - vq.last_avail_idx) % U16))
            { vq with last_avail_idx := av.idx },
          out ++ outputBytes mem
            (goodDescs regions descTbl av vq.size vq.last_avail_idx
              ((av.idx + U16 - vq.last_avail_idx) % U16)),
          0⟩ := by
  intro fuel
  induction fuel with
  | zero =>
    intro vq out hdesc havail hready hla hai hn
    have hz : (av.idx + U16 - vq.last_avail_idx) % U16 = 0 := Nat.le_zero.mp hn
    have heq : vq.last_avail_idx = av.idx := by
      unfold U16 at hz hla hai
      omega
    rw [hz]
    show (⟨vq, out, 0⟩ : ConsoleNotifyResult) = _
    rw [← heq]
    simp [goodDescs, availHeads, headDescs, completeAll, outputBytes]
  | succ fuel ih =>
    intro vq out hdesc havail hready hla hai hn
    by_cases heq : vq.last_avail_idx = av.idx
    · have hz : (av.idx + U16 - vq.last_avail_idx) % U16 = 0 := by
        unfold U16 at hla hai ⊢
        omega
      rw [hz, console_notify_loop_step_none regions mem fuel vq out vq
        (virtqueue_pop_none_eq vq descTbl av hdesc havail hready heq)]
      rw [← heq]
      simp [goodDescs, availHeads, headDescs, completeAll, outputBytes]
    · obtain ⟨m, hm⟩ : ∃ m, (av.idx + U16 - vq.last_avail_idx) % U16 = m + 1 := by
        have hnz : (av.idx + U16 - vq.last_avail_idx) % U16 ≠ 0 := by
          unfold U16 at hla hai ⊢
          omega
        exact Nat.exists_eq_succ_of_ne_zero hnz
      have hpop := virtqueue_pop_eq vq descTbl av hdesc havail hready heq
      have hla1 : (vq.last_avail_idx + 1) % U16 < U16 :=
        Nat.mod_lt _ (by unfold U16; omega)
      have hm1 : (av.idx + U16 - (vq.last_avail_idx + 1) % U16) % U16 = m := by
        unfold U16 at hm hla hai ⊢
        omega
      have hmf : m ≤ fuel := by omega
      rw [hm, console_notify_loop_step_some regions mem fuel vq out _ _ _ hpop]
      generalize hi0e : (av.ring[vq.last_avail_idx % vq.size]?).getD 0 = i0
      generalize hd0e : (descTbl[i0]?).getD default = d0
      by_cases ht : (vm_gpa_to_hva regions d0.addr d0.len).isSome = true
      · rw [if_neg (by simp [ht])]
        rw [virtqueue_push_set_last_avail]
        generalize hq1e : (virtqueue_push vq i0 d0.len).fst = q1
        have hpf := virtqueue_push_fields vq i0 d0.len
        rw [hq1e] at hpf
        rw [ih { q1 with last_avail_idx := (vq.last_avail_idx + 1) % U16 }
            (out ++ readBytes mem d0.addr d0.len)
            (by dsimp only; rw [hpf.1]; exact hdesc)
            (by dsimp only; rw [hpf.2.1]; exact havail)
            (by dsimp only; rw [hpf.2.2.1]; exact hready)
            (by dsimp only; exact hla1)
            hai
            (by dsimp only; rw [hm1]; exact hmf)]
        dsimp only
        rw [hm1, hpf.2.2.2.2]
        have hgood : goodDescs regions descTbl av vq.size vq.last_avail_idx (m + 1) =
            (i0, d0) ::
            goodDescs regions descTbl av vq.size ((vq.last_avail_idx + 1) % U16) m := by
          simp [goodDescs, availHeads, headDescs, hi0e, hd0e, List.filter_cons, ht]
        rw [hgood, completeAll_cons, outputBytes_cons]
        dsimp only
        rw [virtqueue_push_set_last_avail, hq1e]
        simp only [List.append_assoc]
        rw [hpf.2.2.2.2]
      · replace ht : vm_gpa_to_hva regions d0.addr d0.len = none := by simpa using ht
        rw [if_pos (by simp [ht])]
        rw [ih { vq with last_avail_idx := (vq.last_avail_idx + 1) % U16 } out
            (by dsimp only; exact hdesc)
            (by dsimp only; exact havail)
            (by dsimp only; exact hready)
            (by dsimp only; exact hla1)
            hai
            (by dsimp only; rw [hm1]; exact hmf)]
        dsimp only
        rw [hm1]
        have hgood : goodDescs regions descTbl av vq.size vq.last_avail_idx (m + 1) =
            goodDescs regions descTbl av vq.size ((vq.last_avail_idx + 1) % U16) m := by
          simp [goodDescs, availHeads, headDescs, hi0e, hd0e, List.filter_cons, ht]
        rw [hgood]

/-- C4 (amended): for every virtio-console queue notification, the loop
drains every pending descriptor (`last_avail_idx` reaches the available
index), each descriptor's buffer is translated through the guest-memory
manager, untranslatable descriptors are skipped without completion, and
each translatable descriptor's bytes are written to standard output (in
consumption order) and the descriptor is completed with a used-ring
push whose id is the descriptor's index and whose written-length equals
the descriptor's own length — not 0 as claimed.  `goodDescs` is the
consumed-and-translatable descriptor sequence, `outputBytes` its byte
output, and `completeAll` performs exactly one push of (index, length)
per completed descriptor. -/
theorem c4_console_notify_amended (regions : List MemRegion) (mem : Nat → Nat)
    (vq : Virtqueue) (descTbl : List VRingDesc) (av : VRingAvail)
    (hdesc : vq.desc = some descTbl) (havail : vq.avail = some av)
    (hready : vq.ready = true)
    (hla : vq.last_avail_idx < U16) (hai : av.idx < U16) :
    (virtio_console_queue_notify regions mem vq).out =
      outputBytes mem (goodDescs regions descTbl av vq.size vq.last_avail_idx
        ((av.idx + U16 - vq.last_avail_idx) % U16)) ∧
    (virtio_console_queue_notify regions mem vq).vq =
      completeAll (goodDescs regions descTbl av vq.size vq.last_avail_idx
        ((av.idx + U16 - vq.last_avail_idx) % U16))
        { vq with last_avail_idx := av.idx } ∧
    (virtio_console_queue_notify regions mem vq).vq.last_avail_idx = av.idx ∧
    (virtio_console_queue_notify regions mem vq).ret = 0 := by
  have h := console_loop_spec regions mem descTbl av U16 vq [] hdesc havail hready hla hai
    (Nat.le_of_lt (Nat.mod_lt _ (by unfold U16; omega)))
  unfold virtio_console_queue_notify
  rw [h]
  refine ⟨by simp, rfl, ?_, rfl⟩
  rw [completeAll_last_avail]

/-- A three-descriptor backlog for the console: descriptor 0 holds the
two bytes of "ok" at 0x100, descriptor 1 points outside every memory
slot (untranslatable), descriptor 2 holds one byte at 0x102. -/
def conQueue2 : Virtqueue :=
  { index := 0, size := 4, desc_gpa := 4096, avail_gpa := 8192, used_gpa := 12288
    , desc := some [⟨256, 2, 0, 0⟩, ⟨1048576, 4, 0, 0⟩, ⟨258, 1, 0, 0⟩, ⟨0, 0, 0, 0⟩]
    , avail := some ⟨0, 3, [0, 1, 2, 0]⟩
    , used := some ⟨0, 0, [⟨9, 9⟩, ⟨9, 9⟩, ⟨9, 9⟩, ⟨9, 9⟩]⟩
    , last_avail_idx := 0, last_used_idx := 0, ready := true }

/-- Witness for the amended C4 theorem: a notification with a
three-descriptor backlog whose middle descriptor does not translate
drains all three, outputs the two translated buffers, and completes
exactly those two. -/
theorem c4_witness :
    (virtio_console_queue_notify blkRegions conMem conQueue2).out =
      outputBytes conMem (goodDescs blkRegions
        [⟨256, 2, 0, 0⟩, ⟨1048576, 4, 0, 0⟩, ⟨258, 1, 0, 0⟩, ⟨0, 0, 0, 0⟩]
        ⟨0, 3, [0, 1, 2, 0]⟩ 4 0 ((3 + U16 - 0) % U16)) ∧
    (virtio_console_queue_notify blkRegions conMem conQueue2).vq =
      completeAll (goodDescs blkRegions
        [⟨256, 2, 0, 0⟩, ⟨1048576, 4, 0, 0⟩, ⟨258, 1, 0, 0⟩, ⟨0, 0, 0, 0⟩]
        ⟨0, 3, [0, 1, 2, 0]⟩ 4 0 ((3 + U16 - 0) % U16))
        { conQueue2 with last_avail_idx := 3 } ∧
    (virtio_console_queue_notify blkRegions conMem conQueue2).vq.last_avail_idx = 3 ∧
    (virtio_console_queue_notify blkRegions conMem conQueue2).ret = 0 :=
  c4_console_notify_amended blkRegions conMem conQueue2
    [⟨256, 2, 0, 0⟩, ⟨1048576, 4, 0, 0⟩, ⟨258, 1, 0, 0⟩, ⟨0, 0, 0, 0⟩]
    ⟨0, 3, [0, 1, 2, 0]⟩ rfl rfl rfl (by decide) (by decide)

end VibeVMM
